import Mathlib

/-!
Shallow embedding of the heimdall multi-tenant authentication gateway
(`github.com/tajious/heimdall`): the rate-limit engine
(`internal/middleware/rate_limiter.go`), the JWT issue/validate protocol
(`internal/middleware/auth.go`, the auth handlers file) and the login
pipeline, together with theorems settling the specification claims.

Modelling conventions:
* Go `int` is `Int`; time is `Int` seconds (JWT numeric dates are encoded
  at second precision); every `time.Now()` is an explicit `now` parameter.
* Go `(T, error)` results are `Except String T`.
* HMAC-SHA2 is modelled symbolically (perfect-MAC assumption): a tag is
  the free constructor `Sig.hmac` applied to the algorithm, the key and
  the signed payload, so two tags are equal exactly when all three agree.
* The store calls the rate-limit engine makes are additionally recorded
  as a trace (a `StoreOp` list) so that claims of the form "the counter
  was / was not read or incremented" can be stated about the engine.
-/

namespace Heimdall

/-- `models.Role` is a Go string type with three constants. -/
abbrev Role := String

def RoleAdmin : Role := "admin"

def RoleUser : Role := "user"

def RoleReadOnly : Role := "read_only"

/-- `models.Claims`: the three custom fields plus the embedded
`jwt.RegisteredClaims` numeric dates this service sets; a field absent
from the payload is `none`. -/
structure Claims where
  UserID : String
  TenantID : String
  Role : Role
  ExpiresAt : Option Int
  IssuedAt : Option Int
  NotBefore : Option Int
deriving DecidableEq, Repr

/-- `RateLimitEntry` from `rate_limiter.go`: a counter with an expiry
instant. -/
structure RateLimitEntry where
  Count : Int
  ExpiresAt : Int
deriving DecidableEq, Repr

/-- The in-memory store contents: the Go `map[string]*RateLimitEntry`,
modelled as an association list holding at most one entry per key. -/
abbrev MemStore := List (String × RateLimitEntry)

/-- The Go map read `s.store[key]`. -/
def memLookup (s : MemStore) (key : String) : Option RateLimitEntry :=
  match s.find? (fun kv => kv.1 == key) with
  | some kv => some kv.2
  | none => none

/-- The expired-entry purge at the top of `MemoryStore.Increment`: every
entry whose `ExpiresAt` lies strictly in the past (`now.After`) is
deleted. -/
def purgeExpired (now : Int) (s : MemStore) : MemStore :=
  s.filter (fun kv => !(decide (kv.2.ExpiresAt < now)))

/-- Replacement of the entry at an existing key of the map. -/
def memUpdate : MemStore → String → RateLimitEntry → MemStore
  | [], _, _ => []
  | kv :: rest, key, e =>
    if kv.1 = key then (key, e) :: rest else kv :: memUpdate rest key e

/-- `MemoryStore.Increment`: purge expired entries, create the entry with
count 0 and a fresh window expiry if absent, then bump the count; the
post-increment count and the new store are returned. This implementation
never returns a Go error. -/
def memIncrement (now : Int) (s : MemStore) (key : String) (window : Int) :
    Int × MemStore :=
  let s' := purgeExpired now s
  match memLookup s' key with
  | some e =>
    let e2 : RateLimitEntry := { e with Count := e.Count + 1 }
    (e2.Count, memUpdate s' key e2)
  | none =>
    let e2 : RateLimitEntry := { Count := 0 + 1, ExpiresAt := now + window }
    (e2.Count, s' ++ [(key, e2)])

/-- `MemoryStore.GetCount`: an absent or expired key reads as 0; no
mutation. -/
def memGetCount (now : Int) (s : MemStore) (key : String) : Int :=
  match memLookup s key with
  | none => 0
  | some e => if e.ExpiresAt < now then 0 else e.Count

/-- The `RateLimitStore` Go interface over an explicit state `σ`:
`Increment` returns the post-increment count and the new state,
`GetCount` reads without mutating; either call may fail (the Redis-backed
implementation surfaces I/O errors). -/
structure RateLimitStore (σ : Type) where
  Increment : σ → String → Int → Except String (Int × σ)
  GetCount : σ → String → Except String Int

/-- The in-memory implementation as a `RateLimitStore` at a fixed
instant: it never fails. -/
def memStore (now : Int) : RateLimitStore MemStore where
  Increment := fun s key window => Except.ok (memIncrement now s key window)
  GetCount := fun s key => Except.ok (memGetCount now s key)

/-- `middleware.RateLimitConfig`. -/
structure RateLimitConfig where
  Enabled : Bool
  Limit : Int
  Window : Int
deriving DecidableEq, Repr

/-- A store call made by the engine, recorded in the trace. -/
inductive StoreOp where
  | get (key : String)
  | incr (key : String) (window : Int)
deriving DecidableEq, Repr

/-- The key a recorded store call touched. -/
def StoreOp.key : StoreOp → String
  | .get k => k
  | .incr k _ => k

/-- `RateLimiter.checkRateLimit`: read the count via `GetCount`; at or
above the limit, fail with "rate limit exceeded" without incrementing;
below it, record the request with one `Increment` (whose count result the
Go code discards). Any store error propagates as the error result.
Alongside the Go result we return the trace of store calls made. -/
def checkRateLimit {σ : Type} (st : RateLimitStore σ) (s : σ) (key : String)
    (config : RateLimitConfig) : Except String σ × List StoreOp :=
  match st.GetCount s key with
  | .error e => (.error e, [.get key])
  | .ok count =>
    if count ≥ config.Limit then
      (.error "rate limit exceeded", [.get key])
    else
      match st.Increment s key config.Window with
      | .error e => (.error e, [.get key, .incr key config.Window])
      | .ok (_, s') => (.ok s', [.get key, .incr key config.Window])

/-- Outcome of the `RateLimit` middleware handler: pass the request on,
or answer 429 for the IP or the user scope. -/
inductive RateLimitResult where
  | next
  | tooManyRequestsIP
  | tooManyRequestsUser
deriving DecidableEq, Repr

/-- The user id the middleware reads from the request locals: the
authenticated claims' `UserID`, or `""` when no claims are present. -/
def userIDOf : Option Claims → String
  | some c => c.UserID
  | none => ""

/-- `RateLimiter.RateLimit`: skip entirely when the limiter or the config
is disabled; otherwise check the `"rate_limit:ip:"++ip` key and then —
only for a non-empty user id — the `"rate_limit:user:"++userID` key; a
failed check answers 429 with that scope and stops. Returns the result,
the store state left behind and the trace of store calls. -/
def RateLimiter.RateLimit {σ : Type} (st : RateLimitStore σ) (enabled : Bool)
    (config : RateLimitConfig) (ip : String) (claimsOpt : Option Claims) (s : σ) :
    RateLimitResult × σ × List StoreOp :=
  if !enabled || !config.Enabled then (.next, s, [])
  else
    let userID := userIDOf claimsOpt
    let ipKey := "rate_limit:ip:" ++ ip
    let userKey := "rate_limit:user:" ++ userID
    match checkRateLimit st s ipKey config with
    | (.error _, tr1) => (.tooManyRequestsIP, s, tr1)
    | (.ok s1, tr1) =>
      if userID ≠ "" then
        match checkRateLimit st s1 userKey config with
        | (.error _, tr2) => (.tooManyRequestsUser, s1, tr1 ++ tr2)
        | (.ok s2, tr2) => (.next, s2, tr1 ++ tr2)
      else (.next, s1, tr1)

/-- JWS algorithms relevant to the `golang-jwt` v5 parser when the key
function returns a `[]byte` key: the three registered HMAC methods, and
the unsigned `none` method. -/
inductive Alg where
  | HS256
  | HS384
  | HS512
  | NoneAlg
deriving DecidableEq, Repr

/-- A symbolic HMAC tag over the signing string: the algorithm, the key
and the signed claims payload. Perfect-MAC assumption: two tags are equal
exactly when all three components are. -/
structure MacTag where
  alg : Alg
  key : String
  payload : Claims
deriving DecidableEq, Repr

/-- A token's signature part: an HMAC tag, or the empty signature carried
by `alg: none` tokens. -/
inductive Sig where
  | hmac (tag : MacTag)
  | empty
deriving DecidableEq, Repr

/-- A compact JWS as the parser sees it after base64/JSON decoding: the
header's algorithm, the claims payload, and the signature. -/
structure SignedToken where
  alg : Alg
  payload : Claims
  sig : Sig
deriving DecidableEq, Repr

/-- The v5 parse errors reachable here; the service collapses all of them
to one boundary message. -/
inductive ParseError where
  | keyTypeMismatch
  | signatureInvalid
  | tokenExpired
  | tokenNotValidYet
deriving DecidableEq, Repr

/-- Signature verification with a `[]byte` key, as `token.Method.Verify`
behaves in `golang-jwt` v5: the `none` method rejects any key other than
its unsafe marker constant, so a byte-slice secret fails; an HMAC method
recomputes the tag with the header's algorithm and the given key and
compares. No algorithm allow-list is applied, because the source calls
`jwt.ParseWithClaims` without `jwt.WithValidMethods`. -/
def verifySignature (tok : SignedToken) (key : String) : Except ParseError Unit :=
  match tok.alg with
  | .NoneAlg => .error .keyTypeMismatch
  | a =>
    if tok.sig = .hmac { alg := a, key := key, payload := tok.payload } then .ok ()
    else .error .signatureInvalid

/-- The v5 default expiry check: `exp`, when present, must lie strictly in
the future (`now.Before(exp)` with zero leeway). -/
def expOK (now : Int) (c : Claims) : Bool :=
  match c.ExpiresAt with
  | some e => decide (now < e)
  | none => true

/-- The v5 default not-before check: `nbf`, when present, must be at or
before `now` (`!now.Before(nbf)` with zero leeway). -/
def nbfOK (now : Int) (c : Claims) : Bool :=
  match c.NotBefore with
  | some n => decide (n ≤ now)
  | none => true

/-- The v5 default claims validator: expiry then not-before; `iat` is not
checked unless the `WithIssuedAt` option is given, which the source never
passes. -/
def validateClaims (now : Int) (c : Claims) : Except ParseError Unit :=
  if expOK now c then
    if nbfOK now c then .ok ()
    else .error .tokenNotValidYet
  else .error .tokenExpired

/-- The key function the source passes to `jwt.ParseWithClaims` in both
`AuthMiddleware.Authenticate` and `AuthHandler.ValidateToken`: it ignores
the token (hence any algorithm hint inside it) and always returns the
configured secret bytes. -/
def serviceKeyfunc (secret : String) (_tok : SignedToken) : String := secret

/-- `jwt.ParseWithClaims` on an already-decoded token: obtain the key from
the key function, verify the signature with the method named in the
header, then run the default claims validation; only on full success are
the decoded claims returned (and `token.Valid` set). -/
def parseWithClaims (secret : String) (now : Int) (tok : SignedToken) :
    Except ParseError Claims :=
  match verifySignature tok (serviceKeyfunc secret tok) with
  | .error e => .error e
  | .ok _ =>
    match validateClaims now tok.payload with
    | .error e => .error e
    | .ok _ => .ok tok.payload

/-- `models.User` (the fields the auth core reads; persistence timestamps
elided). `Password` holds the bcrypt hash. -/
structure User where
  ID : String
  TenantID : String
  Username : String
  Password : String
  Phone : String
  Role : Role
deriving DecidableEq, Repr

/-- `AuthHandler.generateToken`: claims from the user's id, tenant and
role with `iat = nbf = now` and `exp = now + jwtDuration`, where
`jwtDuration` is the duration the handler was constructed with; the token
is signed `HS256` with the service secret. The three `time.Now()` calls
are modelled as one instant (they fall within the same second). -/
def generateToken (jwtSecret : String) (jwtDuration : Int) (now : Int)
    (user : User) : SignedToken :=
  let claims : Claims :=
    { UserID := user.ID
      TenantID := user.TenantID
      Role := user.Role
      ExpiresAt := some (now + jwtDuration)
      IssuedAt := some now
      NotBefore := some now }
  { alg := .HS256
    payload := claims
    sig := .hmac { alg := .HS256, key := jwtSecret, payload := claims } }

/-- Outcome of the authentication middleware for an extracted bearer
token. -/
inductive AuthResult where
  | unauthorized (msg : String)
  | authenticated (claims : Claims)
deriving DecidableEq, Repr

/-- The token-validation core of `AuthMiddleware.Authenticate` (after the
`Bearer` header has been split): every parse or validation failure
collapses to one 401 "Invalid token" answer; on success the decoded
claims are stored in the request context. -/
def AuthMiddleware.Authenticate (secret : String) (now : Int)
    (tokenString : SignedToken) : AuthResult :=
  match parseWithClaims secret now tokenString with
  | .error _ => .unauthorized "Invalid token"
  | .ok claims => .authenticated claims

/-- `models.TenantConfig`. -/
structure TenantConfig where
  TenantID : String
  AuthMethod : String
  JWTDuration : Int
  RateLimitIP : Int
  RateLimitUser : Int
  RateLimitWindow : Int
deriving DecidableEq, Repr

/-- `models.Tenant` with its owned config. -/
structure Tenant where
  ID : String
  Name : String
  Config : TenantConfig
deriving DecidableEq, Repr

/-- The `Storage` lookups the auth handlers use: tenants are keyed by id;
users are keyed by the unique `username` column — `GetUserByUsername`
filters on `username = ?` in both storage implementations. -/
structure StorageModel where
  tenants : String → Option Tenant
  usersByUsername : String → Option User

/-- `models.LoginRequest` (the phone field is unused on this path). -/
structure LoginRequest where
  Username : String
  Password : String
deriving DecidableEq, Repr

/-- `models.LoginResponse`. -/
structure LoginResponse where
  Token : SignedToken
  ExpiresIn : Int
  User : User
deriving DecidableEq, Repr

/-- Outcome of the login handler. -/
inductive LoginResult where
  | badRequest (msg : String)
  | unauthorized (msg : String)
  | ok (resp : LoginResponse)
deriving DecidableEq, Repr

/-- `AuthHandler.authenticateWithUsernamePassword`: reject empty fields,
resolve the user by username, then compare the password with the stored
hash through the opaque bcrypt capability `hashOK hash password`. The
distinct not-found / bad-password errors all surface identically in
`Login`, so the failure cases collapse to `none`. -/
def authenticateWithUsernamePassword (hashOK : String → String → Bool)
    (st : StorageModel) (req : LoginRequest) : Option User :=
  if req.Username = "" ∨ req.Password = "" then none
  else
    match st.usersByUsername req.Username with
    | none => none
    | some user => if hashOK user.Password req.Password then some user else none

/-- `AuthHandler.Login` after body parsing (the struct has no validation
tags, so `ValidateStruct` always passes): require a tenant id in the
path, resolve the tenant, run the credential check, require the user's
tenant to equal the path tenant, then issue a token and answer with it,
the tenant config's raw `JWTDuration` value as `expires_in`, and the
user. The best-effort `UpdateUserLastLogin` never changes the response. -/
def AuthHandler.Login (hashOK : String → String → Bool) (st : StorageModel)
    (jwtSecret : String) (jwtDuration : Int) (now : Int)
    (tenantID : String) (req : LoginRequest) : LoginResult :=
  if tenantID = "" then .badRequest "Tenant ID is required"
  else
    match st.tenants tenantID with
    | none => .unauthorized "Invalid tenant"
    | some tenant =>
      match authenticateWithUsernamePassword hashOK st req with
      | none => .unauthorized "Invalid credentials"
      | some user =>
        if user.TenantID ≠ tenantID then .unauthorized "Invalid tenant"
        else
          .ok { Token := generateToken jwtSecret jwtDuration now user
                ExpiresIn := tenant.Config.JWTDuration
                User := user }

/-- Outcome of the standalone token-validation endpoint. -/
inductive ValidateTokenResult where
  | unauthorized (msg : String)
  | valid (userID username : String) (role : Role) (tenant : Tenant)
      (expiresAt : Option Int)
deriving DecidableEq, Repr

/-- `AuthHandler.ValidateToken` on an extracted bearer token: parse and
validate the token (the claims type assertion and `token.Valid` re-check
never fail once parsing succeeded), then call `GetUserByUsername` passing
`claims.UserID` — the source queries the username column with the user
id — then resolve the tenant by `claims.TenantID`; each failed lookup is
its own 401 answer. -/
def AuthHandler.ValidateToken (st : StorageModel) (jwtSecret : String)
    (now : Int) (tokenString : SignedToken) : ValidateTokenResult :=
  match parseWithClaims jwtSecret now tokenString with
  | .error _ => .unauthorized "Invalid token"
  | .ok claims =>
    match st.usersByUsername claims.UserID with
    | none => .unauthorized "User not found"
    | some user =>
      match st.tenants claims.TenantID with
      | none => .unauthorized "Invalid tenant"
      | some tenant =>
        .valid user.ID user.Username user.Role tenant claims.ExpiresAt

/-- A concrete user fixture: note the id `"u1"` differs from the username
`"alice"`, as ids and usernames do in the data model. -/
def userA : User :=
  { ID := "u1", TenantID := "t1", Username := "alice", Password := "pw",
    Phone := "", Role := "admin" }

/-- A concrete tenant fixture whose config sets `JWTDuration := 30`. -/
def tenantA : Tenant :=
  { ID := "t1", Name := "Acme",
    Config := { TenantID := "t1", AuthMethod := "username_password",
                JWTDuration := 30, RateLimitIP := 100, RateLimitUser := 50,
                RateLimitWindow := 60 } }

/-- Storage holding exactly `tenantA` (by id) and `userA` (by username). -/
def storageA : StorageModel :=
  { tenants := fun k => if k = "t1" then some tenantA else none
    usersByUsername := fun k => if k = "alice" then some userA else none }

/-- A concrete instantiation of the opaque bcrypt capability: the stored
"hash" is compared for equality with the presented password. -/
def plaintextHashOK : String → String → Bool := fun hash pw => hash == pw

/-- The claims payload of the token `generateToken "k" 3600 0 userA`
issues. -/
def claimsA : Claims :=
  { UserID := "u1", TenantID := "t1", Role := "admin",
    ExpiresAt := some 3600, IssuedAt := some 0, NotBefore := some 0 }

/-- A token over `claimsA` whose header names `HS384` and whose signature
is the `HS384` HMAC tag under the service secret `"k"` — a re-signing of
the service's own claims with a different algorithm of the same family. -/
def hs384Token : SignedToken :=
  { alg := .HS384, payload := claimsA,
    sig := .hmac { alg := .HS384, key := "k", payload := claimsA } }

/-- C1: the verification key function does ignore the token's algorithm
hint, but precisely because of that — and because no algorithm allow-list
is configured — verification does NOT succeed only for HS256: a token
over the service's own claims, re-signed with HS384 under the same
secret, authenticates. The claim's "succeeds only for tokens signed with
the configured HMAC-SHA256 algorithm" fails on the code. -/
theorem c1_hs384_token_is_accepted :
    hs384Token.alg = Alg.HS384 ∧ Alg.HS384 ≠ Alg.HS256 ∧
    serviceKeyfunc "k" hs384Token = "k" ∧
    AuthMiddleware.Authenticate "k" 50 hs384Token =
      AuthResult.authenticated claimsA := by decide

/-- C4: the standalone token-validation endpoint does not re-resolve the
user by id: it passes `claims.UserID` to `GetUserByUsername`, which
filters on the username column. For the existing user `userA` (id `u1`,
username `alice`) holding a fresh, unexpired, correctly signed token, the
lookup finds no record and the endpoint answers 401 "User not found" even
though both the user and the tenant exist. -/
theorem c4_validate_token_looks_up_username_with_user_id :
    storageA.usersByUsername userA.Username = some userA ∧
    storageA.tenants userA.TenantID = some tenantA ∧
    AuthHandler.ValidateToken storageA "k" 10 (generateToken "k" 3600 0 userA) =
      ValidateTokenResult.unauthorized "User not found" := by decide

/-- C2 counterexample: with the handler constructed with a 3600-second
duration and a tenant whose config sets `JWTDuration := 30`, a successful
login issues a token whose lifetime is `3600` (the service-global
duration — neither `30` minutes nor `30` seconds of tenant-configured
session duration), while the response's `expires_in` is the raw tenant
value `30`, which is not the token lifetime in seconds. -/
theorem c2_lifetime_counterexample :
    AuthHandler.Login plaintextHashOK storageA "k" 3600 0 "t1"
        { Username := "alice", Password := "pw" } =
      LoginResult.ok { Token := generateToken "k" 3600 0 userA,
                       ExpiresIn := 30, User := userA } ∧
    (generateToken "k" 3600 0 userA).payload.ExpiresAt = some 3600 ∧
    (generateToken "k" 3600 0 userA).payload.IssuedAt = some 0 ∧
    tenantA.Config.JWTDuration = 30 ∧
    (3600 : Int) - 0 ≠ 30 * 60 ∧ (3600 : Int) - 0 ≠ 30 ∧
    (30 : Int) ≠ 3600 := by decide

/-- C3 counterexample: two failed login attempts produce two different
messages — an unknown tenant answers 401 "Invalid tenant" while a wrong
password answers 401 "Invalid credentials" — so failed logins do not
carry a single generic failure message. -/
theorem c3_distinct_failure_messages :
    AuthHandler.Login plaintextHashOK storageA "k" 3600 0 "t2"
        { Username := "alice", Password := "pw" } =
      LoginResult.unauthorized "Invalid tenant" ∧
    AuthHandler.Login plaintextHashOK storageA "k" 3600 0 "t1"
        { Username := "alice", Password := "wrong" } =
      LoginResult.unauthorized "Invalid credentials" ∧
    "Invalid tenant" ≠ "Invalid credentials" := by decide

/-- C9 counterexample: a correctly signed token validated exactly at its
`expires_at` (`now = 100 = exp`, `nbf = 0 ≤ now`) satisfies the claim's
acceptance condition `not_before ≤ now ≤ expires_at`, yet the code
rejects it: the v5 expiry check requires `now` strictly before `exp`. -/
theorem c9_boundary_counterexample :
    (generateToken "k" 100 0 userA).sig =
      Sig.hmac { alg := Alg.HS256, key := "k",
                 payload := (generateToken "k" 100 0 userA).payload } ∧
    (generateToken "k" 100 0 userA).payload.NotBefore = some 0 ∧
    (generateToken "k" 100 0 userA).payload.ExpiresAt = some 100 ∧
    (0 : Int) ≤ 100 ∧ (100 : Int) ≤ 100 ∧
    AuthMiddleware.Authenticate "k" 100 (generateToken "k" 100 0 userA) =
      AuthResult.unauthorized "Invalid token" := by decide

/-- Signature verification succeeds exactly for a non-`none` algorithm
whose tag was computed with the header's algorithm, the given key and the
token's own payload. -/
theorem verifySignature_ok_iff (tok : SignedToken) (key : String) :
    verifySignature tok key = Except.ok () ↔
      (tok.alg ≠ Alg.NoneAlg ∧
       tok.sig = Sig.hmac { alg := tok.alg, key := key, payload := tok.payload }) := by
  rcases tok with ⟨alg, payload, sig⟩
  cases alg
  case NoneAlg => simp [verifySignature]
  all_goals simp only [verifySignature] <;> split_ifs with h <;> simp_all

/-- The default claims validation succeeds exactly when `now` is strictly
before `exp` (when present) and at or after `nbf` (when present). -/
theorem validateClaims_ok_iff (now : Int) (c : Claims) :
    validateClaims now c = Except.ok () ↔
      ((∀ e, c.ExpiresAt = some e → now < e) ∧
       (∀ n, c.NotBefore = some n → n ≤ now)) := by
  unfold validateClaims expOK nbfOK
  rcases hE : c.ExpiresAt with _ | e <;> rcases hN : c.NotBefore with _ | n <;>
    simp [hE, hN] <;> split_ifs with h1 h2 <;> simp_all

/-- Parsing succeeds with claims `c` exactly when `c` is the token's own
payload and both the signature and the claims checks pass. -/
theorem parseWithClaims_ok_iff (secret : String) (now : Int) (tok : SignedToken)
    (c : Claims) :
    parseWithClaims secret now tok = Except.ok c ↔
      (c = tok.payload ∧ verifySignature tok secret = Except.ok () ∧
       validateClaims now tok.payload = Except.ok ()) := by
  unfold parseWithClaims serviceKeyfunc
  rcases hv : verifySignature tok secret with e | u
  · simp [hv]
  · cases u
    rcases hc : validateClaims now tok.payload with e | u2
    · simp [hv, hc]
    · cases u2
      simp [hv, hc, eq_comm]

/-- A freshly issued token parses back to its own payload whenever the
configured duration is positive. -/
theorem parse_generate (secret : String) (dur now : Int) (u : User) (h : 0 < dur) :
    parseWithClaims secret now (generateToken secret dur now u) =
      Except.ok ((generateToken secret dur now u).payload) := by
  rw [parseWithClaims_ok_iff]
  refine ⟨rfl, ?_, ?_⟩
  · rw [verifySignature_ok_iff]
    exact ⟨by simp [generateToken], by simp [generateToken]⟩
  · rw [validateClaims_ok_iff]
    constructor
    · intro e he
      simp [generateToken] at he
      omega
    · intro n hn
      simp [generateToken] at hn
      omega

/-- The middleware authenticates claims `c` exactly when the parser
returns `c`. -/
theorem authenticate_eq_authenticated_iff (secret : String) (now : Int)
    (tok : SignedToken) (c : Claims) :
    AuthMiddleware.Authenticate secret now tok = AuthResult.authenticated c ↔
      parseWithClaims secret now tok = Except.ok c := by
  unfold AuthMiddleware.Authenticate
  rcases hp : parseWithClaims secret now tok with err | c2 <;> simp [hp]

/-- C8: issuing a token for any user and immediately validating it (same
instant, positive configured duration) succeeds and returns claims whose
user id, tenant id and role are the issuing user's. -/
theorem c8_issue_then_validate_round_trip :
    ∀ (secret : String) (dur now : Int) (u : User), 0 < dur →
      ∃ c : Claims,
        AuthMiddleware.Authenticate secret now (generateToken secret dur now u) =
          AuthResult.authenticated c ∧
        c.UserID = u.ID ∧ c.TenantID = u.TenantID ∧ c.Role = u.Role := by
  intro secret dur now u h
  refine ⟨(generateToken secret dur now u).payload, ?_, rfl, rfl, rfl⟩
  rw [authenticate_eq_authenticated_iff]
  exact parse_generate secret dur now u h

/-- Witness for C8 at a concrete input. -/
theorem c8_issue_then_validate_round_trip_witness :
    (0 : Int) < 3600 ∧
    ∃ c : Claims,
      AuthMiddleware.Authenticate "k" 0 (generateToken "k" 3600 0 userA) =
        AuthResult.authenticated c ∧
      c.UserID = userA.ID ∧ c.TenantID = userA.TenantID ∧ c.Role = userA.Role :=
  ⟨by decide, c8_issue_then_validate_round_trip "k" 3600 0 userA (by decide)⟩

/-- C9 (amended): validation returns the decoded claims exactly when the
algorithm is of the HMAC family (not `none`), the signature is the HMAC
tag of the payload under the service secret with the header's algorithm,
`now` is strictly before `exp` when present, and `nbf ≤ now` when
present; validation only ever returns the token's own payload; and any
token validated at or after its `expires_at` is rejected as invalid. -/
theorem c9_amended_validate_characterization :
    ∀ (secret : String) (now : Int) (tok : SignedToken),
      (AuthMiddleware.Authenticate secret now tok =
          AuthResult.authenticated tok.payload ↔
        (tok.alg ≠ Alg.NoneAlg ∧
         tok.sig = Sig.hmac { alg := tok.alg, key := secret, payload := tok.payload } ∧
         (∀ e, tok.payload.ExpiresAt = some e → now < e) ∧
         (∀ n, tok.payload.NotBefore = some n → n ≤ now))) ∧
      (∀ c, AuthMiddleware.Authenticate secret now tok = AuthResult.authenticated c →
        c = tok.payload) ∧
      (∀ e, tok.payload.ExpiresAt = some e → e ≤ now →
        AuthMiddleware.Authenticate secret now tok =
          AuthResult.unauthorized "Invalid token") := by
  intro secret now tok
  refine ⟨?_, ?_, ?_⟩
  · rw [authenticate_eq_authenticated_iff, parseWithClaims_ok_iff,
        verifySignature_ok_iff, validateClaims_ok_iff]
    simp [and_assoc]
  · intro c h
    exact ((parseWithClaims_ok_iff secret now tok c).mp
      ((authenticate_eq_authenticated_iff secret now tok c).mp h)).1
  · intro e he hle
    unfold AuthMiddleware.Authenticate
    rcases hp : parseWithClaims secret now tok with err | c
    · rfl
    · exfalso
      have hc := (parseWithClaims_ok_iff secret now tok c).mp hp
      have hv := (validateClaims_ok_iff now tok.payload).mp hc.2.2
      have := hv.1 e he
      omega

/-- Witness for C9's amended theorem at a concrete input: the fixture
token expiring at 100 is rejected when validated at 100. -/
theorem c9_amended_validate_characterization_witness :
    (generateToken "k" 100 0 userA).payload.ExpiresAt = some 100 ∧
    (100 : Int) ≤ 100 ∧
    AuthMiddleware.Authenticate "k" 100 (generateToken "k" 100 0 userA) =
      AuthResult.unauthorized "Invalid token" :=
  ⟨by decide, by decide,
   (c9_amended_validate_characterization "k" 100
     (generateToken "k" 100 0 userA)).2.2 100 (by decide) (by decide)⟩

/-- C2 (amended): whenever login succeeds, the issued token's claims have
`issued_at = not_before = issue time` and `expires_at = issue time +` the
handler's service-global configured duration (not the tenant's), while
the response's `expires_in` is the resolved tenant config's raw
`JWTDuration` value. -/
theorem c2_amended_login_lifetime :
    ∀ (hashOK : String → String → Bool) (st : StorageModel) (secret : String)
      (dur now : Int) (tid : String) (req : LoginRequest) (resp : LoginResponse),
      AuthHandler.Login hashOK st secret dur now tid req = LoginResult.ok resp →
      resp.Token.payload.IssuedAt = some now ∧
      resp.Token.payload.NotBefore = some now ∧
      resp.Token.payload.ExpiresAt = some (now + dur) ∧
      ∃ t, st.tenants tid = some t ∧ resp.ExpiresIn = t.Config.JWTDuration := by
  intro hashOK st secret dur now tid req resp h
  by_cases h0 : tid = ""
  · simp only [AuthHandler.Login, if_pos h0] at h
    cases h
  · simp only [AuthHandler.Login, if_neg h0] at h
    rcases ht : st.tenants tid with _ | t
    · simp only [ht] at h
      cases h
    · simp only [ht] at h
      rcases ha : authenticateWithUsernamePassword hashOK st req with _ | u
      · simp only [ha] at h
        cases h
      · simp only [ha] at h
        by_cases hm : u.TenantID ≠ tid
        · simp only [if_pos hm] at h
          cases h
        · simp only [if_neg hm] at h
          cases h
          exact ⟨rfl, rfl, rfl, t, rfl, rfl⟩

/-- Witness for C2's amended theorem at a concrete input. -/
theorem c2_amended_login_lifetime_witness :
    (generateToken "k" 3600 0 userA).payload.IssuedAt = some 0 ∧
    (generateToken "k" 3600 0 userA).payload.NotBefore = some 0 ∧
    (generateToken "k" 3600 0 userA).payload.ExpiresAt = some (0 + 3600) ∧
    ∃ t, storageA.tenants "t1" = some t ∧ (30 : Int) = t.Config.JWTDuration :=
  c2_amended_login_lifetime plaintextHashOK storageA "k" 3600 0 "t1"
    { Username := "alice", Password := "pw" }
    { Token := generateToken "k" 3600 0 userA, ExpiresIn := 30, User := userA }
    (by decide)

/-- C3 (amended): failed logins are normalized into two generic message
classes, not one — tenant-resolution failures and tenant mismatches both
answer 401 "Invalid tenant", and every credential failure (unknown
username, wrong password, missing fields) answers 401 "Invalid
credentials". -/
theorem c3_amended_two_message_classes :
    ∀ (hashOK : String → String → Bool) (st : StorageModel) (secret : String)
      (dur now : Int) (tid : String) (req : LoginRequest), tid ≠ "" →
      (st.tenants tid = none →
        AuthHandler.Login hashOK st secret dur now tid req =
          LoginResult.unauthorized "Invalid tenant") ∧
      (∀ t, st.tenants tid = some t →
        authenticateWithUsernamePassword hashOK st req = none →
        AuthHandler.Login hashOK st secret dur now tid req =
          LoginResult.unauthorized "Invalid credentials") ∧
      (∀ t u, st.tenants tid = some t →
        authenticateWithUsernamePassword hashOK st req = some u →
        u.TenantID ≠ tid →
        AuthHandler.Login hashOK st secret dur now tid req =
          LoginResult.unauthorized "Invalid tenant") := by
  intro hashOK st secret dur now tid req htid
  refine ⟨?_, ?_, ?_⟩
  · intro hn
    simp only [AuthHandler.Login, if_neg htid, hn]
  · intro t ht ha
    simp only [AuthHandler.Login, if_neg htid, ht, ha]
  · intro t u ht ha hm
    simp only [AuthHandler.Login, if_neg htid, ht, ha, if_pos hm]

/-- Witness for C3's amended theorem at a concrete input. -/
theorem c3_amended_two_message_classes_witness :
    ("t2" : String) ≠ "" ∧ storageA.tenants "t2" = none ∧
    AuthHandler.Login plaintextHashOK storageA "k" 3600 0 "t2"
        { Username := "alice", Password := "pw" } =
      LoginResult.unauthorized "Invalid tenant" :=
  ⟨by decide, by decide,
   (c3_amended_two_message_classes plaintextHashOK storageA "k" 3600 0 "t2"
     { Username := "alice", Password := "pw" } (by decide)).1 (by decide)⟩

/-- The trace of one `checkRateLimit` call is the read alone, or the read
followed by one increment of the same key. -/
theorem checkRateLimit_trace {σ : Type} (st : RateLimitStore σ) (s : σ)
    (key : String) (cfg : RateLimitConfig) :
    (checkRateLimit st s key cfg).2 = [StoreOp.get key] ∨
    (checkRateLimit st s key cfg).2 =
      [StoreOp.get key, StoreOp.incr key cfg.Window] := by
  rcases hg : st.GetCount s key with e | c <;> simp only [checkRateLimit, hg]
  · simp
  · by_cases hl : c ≥ cfg.Limit
    · simp [hl]
    · simp only [if_neg hl]
      rcases hi : st.Increment s key cfg.Window with e | p <;> simp [hi]

/-- Every store call `checkRateLimit` makes touches exactly its key. -/
theorem checkRateLimit_trace_keys {σ : Type} (st : RateLimitStore σ) (s : σ)
    (key : String) (cfg : RateLimitConfig) :
    ∀ op ∈ (checkRateLimit st s key cfg).2, StoreOp.key op = key := by
  intro op hop
  rcases checkRateLimit_trace st s key cfg with h | h <;> rw [h] at hop <;>
    simp only [List.mem_cons, List.not_mem_nil, or_false] at hop
  · subst hop; rfl
  · rcases hop with rfl | rfl <;> rfl

/-- A `checkRateLimit` call passes only when the read succeeded below the
limit and the increment succeeded, producing the incremented state. -/
theorem checkRateLimit_ok_inv {σ : Type} (st : RateLimitStore σ) (s : σ)
    (key : String) (cfg : RateLimitConfig) (s2 : σ)
    (h : (checkRateLimit st s key cfg).1 = Except.ok s2) :
    ∃ c k, st.GetCount s key = Except.ok c ∧ c < cfg.Limit ∧
      st.Increment s key cfg.Window = Except.ok (k, s2) := by
  rcases hg : st.GetCount s key with e | c <;> simp only [checkRateLimit, hg] at h
  · cases h
  · by_cases hl : c ≥ cfg.Limit
    · rw [if_pos hl] at h; cases h
    · rw [if_neg hl] at h
      rcases hi : st.Increment s key cfg.Window with e | p <;> simp only [hi] at h
      · cases h
      · rcases p with ⟨k, s3⟩
        simp only at h
        cases h
        exact ⟨c, k, rfl, by omega, rfl⟩

/-- At or above the limit, a check denies with only the read in the
trace — the counter is not incremented. -/
theorem checkRateLimit_over_limit {σ : Type} (st : RateLimitStore σ) (s : σ)
    (key : String) (cfg : RateLimitConfig) (c : Int)
    (hg : st.GetCount s key = Except.ok c) (hl : cfg.Limit ≤ c) :
    checkRateLimit st s key cfg =
      (Except.error "rate limit exceeded", [StoreOp.get key]) := by
  simp only [checkRateLimit, hg, ge_iff_le, if_pos hl]

/-- Below the limit, a check performs the read and then exactly one
increment. -/
theorem checkRateLimit_under_limit {σ : Type} (st : RateLimitStore σ) (s : σ)
    (key : String) (cfg : RateLimitConfig) (c : Int)
    (hg : st.GetCount s key = Except.ok c) (hl : c < cfg.Limit) :
    (checkRateLimit st s key cfg).2 =
      [StoreOp.get key, StoreOp.incr key cfg.Window] := by
  simp only [checkRateLimit, hg, ge_iff_le]
  rw [if_neg (by omega)]
  rcases st.Increment s key cfg.Window with e | p <;> simp

/-- A passing check's trace is the read followed by the increment. -/
theorem checkRateLimit_ok_trace {σ : Type} (st : RateLimitStore σ) (s : σ)
    (key : String) (cfg : RateLimitConfig) (s2 : σ)
    (h : (checkRateLimit st s key cfg).1 = Except.ok s2) :
    (checkRateLimit st s key cfg).2 =
      [StoreOp.get key, StoreOp.incr key cfg.Window] := by
  obtain ⟨c, k, hg, hl, hi⟩ := checkRateLimit_ok_inv st s key cfg s2 h
  exact checkRateLimit_under_limit st s key cfg c hg hl

/-- `n` calls of `MemoryStore.Increment` on one key, starting from the
empty store, all at the same instant (hence within one window). -/
def iterIncrement (now : Int) (key : String) (window : Int) : Nat → MemStore
  | 0 => []
  | n + 1 => (memIncrement now (iterIncrement now key window n) key window).2

/-- After `n + 1` increments within one window the store holds exactly one
entry for the key, with count `n + 1` and the expiry set by the first
increment. -/
theorem iterIncrement_succ (now : Int) (key : String) (window : Int)
    (hw : 0 ≤ window) :
    ∀ n : Nat, iterIncrement now key window (n + 1) =
      [(key, { Count := (n : Int) + 1, ExpiresAt := now + window })] := by
  intro n
  induction n with
  | zero => simp [iterIncrement, memIncrement, purgeExpired, memLookup]
  | succ n ih =>
    rw [iterIncrement, ih]
    have h1 : ¬ (now + window < now) := by omega
    simp [memIncrement, purgeExpired, memLookup, memUpdate, h1]

/-- After exactly `n` increments within one window, `GetCount` reads `n`. -/
theorem memGetCount_iterIncrement (now : Int) (key : String) (window : Int)
    (hw : 0 ≤ window) (n : Nat) :
    memGetCount now (iterIncrement now key window n) key = (n : Int) := by
  cases n with
  | zero => simp [iterIncrement, memGetCount, memLookup]
  | succ n =>
    rw [iterIncrement_succ now key window hw n]
    have h1 : ¬ (now + window < now) := by omega
    simp [memGetCount, memLookup, h1]

/-- C6: a per-key check reads first and denies at or above the limit
without incrementing (the trace holds the read alone), and below the
limit increments exactly once; on the in-memory store, `limit` increments
of a key within one window make `GetCount` read `limit`, and the next
check on that key denies. -/
theorem c6_read_then_conditionally_increment :
    (∀ (σ : Type) (st : RateLimitStore σ) (s : σ) (key : String)
       (cfg : RateLimitConfig) (c : Int), st.GetCount s key = Except.ok c →
       (cfg.Limit ≤ c →
         checkRateLimit st s key cfg =
           (Except.error "rate limit exceeded", [StoreOp.get key])) ∧
       (c < cfg.Limit →
         (checkRateLimit st s key cfg).2 =
           [StoreOp.get key, StoreOp.incr key cfg.Window])) ∧
    (∀ (key : String) (window now : Int) (n : Nat), 0 ≤ window →
       memGetCount now (iterIncrement now key window n) key = (n : Int)) ∧
    (∀ (key : String) (window now : Int) (limit : Nat) (en : Bool), 0 ≤ window →
       (checkRateLimit (memStore now) (iterIncrement now key window limit) key
           { Enabled := en, Limit := (limit : Int), Window := window }).1 =
         Except.error "rate limit exceeded") := by
  refine ⟨?_, ?_, ?_⟩
  · intro σ st s key cfg c hg
    exact ⟨fun hl => checkRateLimit_over_limit st s key cfg c hg hl,
           fun hl => checkRateLimit_under_limit st s key cfg c hg hl⟩
  · intro key window now n hw
    exact memGetCount_iterIncrement now key window hw n
  · intro key window now limit en hw
    have hg : (memStore now).GetCount (iterIncrement now key window limit) key =
        Except.ok (limit : Int) := by
      simp [memStore, memGetCount_iterIncrement now key window hw limit]
    rw [checkRateLimit_over_limit (memStore now) _ key _ _ hg (le_refl _)]

/-- Witness for C6 at a concrete input: three increments of key `k` in a
60-second window, then a check with limit 3 denies, and a deny-without-
increment at a key already at the limit. -/
theorem c6_read_then_conditionally_increment_witness :
    (0 : Int) ≤ 60 ∧
    memGetCount 0 (iterIncrement 0 "k" 60 3) "k" = ((3 : Nat) : Int) ∧
    (checkRateLimit (memStore 0) (iterIncrement 0 "k" 60 3) "k"
        { Enabled := true, Limit := ((3 : Nat) : Int), Window := 60 }).1 =
      Except.error "rate limit exceeded" ∧
    checkRateLimit (memStore 0) ([] : MemStore) "k"
        { Enabled := true, Limit := 0, Window := 60 } =
      (Except.error "rate limit exceeded", [StoreOp.get "k"]) :=
  ⟨by decide,
   c6_read_then_conditionally_increment.2.1 "k" 60 0 3 (by decide),
   c6_read_then_conditionally_increment.2.2 "k" 60 0 3 true (by decide),
   (c6_read_then_conditionally_increment.1 MemStore (memStore 0) [] "k"
     { Enabled := true, Limit := 0, Window := 60 } 0 rfl).1 (by decide)⟩

/-- A store whose calls always fail, as the Redis-backed store does when
the backend is unreachable. -/
def errStore : RateLimitStore Unit where
  Increment := fun _ _ _ => Except.error "connection refused"
  GetCount := fun _ _ => Except.error "connection refused"

/-- C5: store failures fail closed. A per-key check passes only when both
the read and the increment succeeded (so an I/O error can never yield a
pass), the middleware forwards a request only when every applicable check
passed, and a read error on the IP key directly produces the 429 IP
denial. -/
theorem c5_store_error_fails_closed :
    (∀ (σ : Type) (st : RateLimitStore σ) (s : σ) (key : String)
       (cfg : RateLimitConfig) (s2 : σ),
       (checkRateLimit st s key cfg).1 = Except.ok s2 →
       ∃ c k, st.GetCount s key = Except.ok c ∧ c < cfg.Limit ∧
         st.Increment s key cfg.Window = Except.ok (k, s2)) ∧
    (∀ (σ : Type) (st : RateLimitStore σ) (cfg : RateLimitConfig) (ip : String)
       (co : Option Claims) (s : σ), cfg.Enabled = true →
       (RateLimiter.RateLimit st true cfg ip co s).1 = RateLimitResult.next →
       ∃ s1, (checkRateLimit st s ("rate_limit:ip:" ++ ip) cfg).1 =
           Except.ok s1 ∧
         (userIDOf co ≠ "" →
           ∃ s2, (checkRateLimit st s1 ("rate_limit:user:" ++ userIDOf co) cfg).1 =
             Except.ok s2)) ∧
    (∀ (σ : Type) (st : RateLimitStore σ) (cfg : RateLimitConfig) (ip : String)
       (co : Option Claims) (s : σ) (e : String), cfg.Enabled = true →
       st.GetCount s ("rate_limit:ip:" ++ ip) = Except.error e →
       (RateLimiter.RateLimit st true cfg ip co s).1 =
         RateLimitResult.tooManyRequestsIP) := by
  refine ⟨?_, ?_, ?_⟩
  · intro σ st s key cfg s2 h
    exact checkRateLimit_ok_inv st s key cfg s2 h
  · intro σ st cfg ip co s hcfg hnext
    rcases hc1 : checkRateLimit st s ("rate_limit:ip:" ++ ip) cfg with ⟨r1, tr1⟩
    rcases r1 with e | s1
    · simp [RateLimiter.RateLimit, hcfg, hc1] at hnext
    · refine ⟨s1, rfl, ?_⟩
      intro hu
      rcases hc2 : checkRateLimit st s1 ("rate_limit:user:" ++ userIDOf co) cfg
        with ⟨r2, tr2⟩
      rcases r2 with e2 | s2
      · simp [RateLimiter.RateLimit, hcfg, hc1, hu, hc2] at hnext
      · exact ⟨s2, rfl⟩
  · intro σ st cfg ip co s e hcfg hge
    have hc : checkRateLimit st s ("rate_limit:ip:" ++ ip) cfg =
        (Except.error e, [StoreOp.get ("rate_limit:ip:" ++ ip)]) := by
      simp [checkRateLimit, hge]
    simp [RateLimiter.RateLimit, hcfg, hc]

/-- Witness for C5 at concrete inputs: the always-failing store is denied
at the IP scope, and an allowed request on the in-memory store had both
checks pass. -/
theorem c5_store_error_fails_closed_witness :
    errStore.GetCount () ("rate_limit:ip:" ++ "1.2.3.4") =
      Except.error "connection refused" ∧
    (RateLimiter.RateLimit errStore true
        { Enabled := true, Limit := 5, Window := 60 } "1.2.3.4" none ()).1 =
      RateLimitResult.tooManyRequestsIP ∧
    (∃ s1, (checkRateLimit (memStore 0) ([] : MemStore)
          ("rate_limit:ip:" ++ "1.2.3.4")
          { Enabled := true, Limit := 5, Window := 60 }).1 = Except.ok s1 ∧
       (userIDOf (none : Option Claims) ≠ "" →
         ∃ s2, (checkRateLimit (memStore 0) s1
             ("rate_limit:user:" ++ userIDOf (none : Option Claims))
             { Enabled := true, Limit := 5, Window := 60 }).1 =
           Except.ok s2)) :=
  ⟨rfl,
   c5_store_error_fails_closed.2.2 Unit errStore
     { Enabled := true, Limit := 5, Window := 60 } "1.2.3.4" none ()
     "connection refused" rfl rfl,
   c5_store_error_fails_closed.2.1 MemStore (memStore 0)
     { Enabled := true, Limit := 5, Window := 60 } "1.2.3.4" none [] rfl
     (by decide)⟩

/-- C7: with rate limiting enabled, the middleware's store calls are the
IP-key calls followed by user-key calls, only an authenticated (non-empty)
user id makes any user-key call, and a denial at the IP scope leaves the
user-scoped counter neither read nor incremented. -/
theorem c7_ip_checked_before_user :
    ∀ (σ : Type) (st : RateLimitStore σ) (cfg : RateLimitConfig) (ip : String)
      (co : Option Claims) (s : σ), cfg.Enabled = true →
      (∃ trIp trUser,
        (RateLimiter.RateLimit st true cfg ip co s).2.2 = trIp ++ trUser ∧
        (∀ op ∈ trIp, StoreOp.key op = "rate_limit:ip:" ++ ip) ∧
        (∀ op ∈ trUser, StoreOp.key op = "rate_limit:user:" ++ userIDOf co)) ∧
      (userIDOf co = "" →
        ∀ op ∈ (RateLimiter.RateLimit st true cfg ip co s).2.2,
          StoreOp.key op = "rate_limit:ip:" ++ ip) ∧
      ((RateLimiter.RateLimit st true cfg ip co s).1 =
          RateLimitResult.tooManyRequestsIP →
        ∀ op ∈ (RateLimiter.RateLimit st true cfg ip co s).2.2,
          StoreOp.key op = "rate_limit:ip:" ++ ip) := by
  intro σ st cfg ip co s hcfg
  have hkeys1 := checkRateLimit_trace_keys st s ("rate_limit:ip:" ++ ip) cfg
  rcases hc1 : checkRateLimit st s ("rate_limit:ip:" ++ ip) cfg with ⟨r1, tr1⟩
  rw [hc1] at hkeys1
  rcases r1 with e | s1
  · have hRL : RateLimiter.RateLimit st true cfg ip co s =
        (RateLimitResult.tooManyRequestsIP, s, tr1) := by
      simp [RateLimiter.RateLimit, hcfg, hc1]
    rw [hRL]
    exact ⟨⟨tr1, [], by simp, hkeys1, by simp⟩, fun _ => hkeys1, fun _ => hkeys1⟩
  · have hkeys2 := checkRateLimit_trace_keys st s1
      ("rate_limit:user:" ++ userIDOf co) cfg
    by_cases hu : userIDOf co = ""
    · have hRL : RateLimiter.RateLimit st true cfg ip co s =
          (RateLimitResult.next, s1, tr1) := by
        simp [RateLimiter.RateLimit, hcfg, hc1, hu]
      rw [hRL]
      refine ⟨⟨tr1, [], by simp, hkeys1, by simp⟩, fun _ => hkeys1, ?_⟩
      intro hr
      cases hr
    · rcases hc2 : checkRateLimit st s1 ("rate_limit:user:" ++ userIDOf co) cfg
        with ⟨r2, tr2⟩
      rw [hc2] at hkeys2
      rcases r2 with e2 | s2
      · have hRL : RateLimiter.RateLimit st true cfg ip co s =
            (RateLimitResult.tooManyRequestsUser, s1, tr1 ++ tr2) := by
          simp [RateLimiter.RateLimit, hcfg, hc1, hc2, hu]
        rw [hRL]
        refine ⟨⟨tr1, tr2, rfl, hkeys1, hkeys2⟩, fun h => absurd h hu, ?_⟩
        intro hr
        cases hr
      · have hRL : RateLimiter.RateLimit st true cfg ip co s =
            (RateLimitResult.next, s2, tr1 ++ tr2) := by
          simp [RateLimiter.RateLimit, hcfg, hc1, hc2, hu]
        rw [hRL]
        refine ⟨⟨tr1, tr2, rfl, hkeys1, hkeys2⟩, fun h => absurd h hu, ?_⟩
        intro hr
        cases hr

/-- Witness for C7 at a concrete input: an anonymous request touches only
the IP key. -/
theorem c7_ip_checked_before_user_witness :
    userIDOf (none : Option Claims) = "" ∧
    ∀ op ∈ (RateLimiter.RateLimit (memStore 0) true
        { Enabled := true, Limit := 5, Window := 60 } "1.2.3.4" none
        ([] : MemStore)).2.2,
      StoreOp.key op = "rate_limit:ip:" ++ "1.2.3.4" :=
  ⟨rfl, (c7_ip_checked_before_user MemStore (memStore 0)
    { Enabled := true, Limit := 5, Window := 60 } "1.2.3.4" none [] rfl).2.1 rfl⟩

/-- C10: when the middleware denies at the user scope, the IP check had
already passed — the IP read succeeded below the limit, the IP counter was
incremented (the increment is in the trace), and the state the handler
leaves behind is the post-IP-increment state, so the denied request still
consumed one unit of the IP budget. -/
theorem c10_user_denial_consumes_ip_budget :
    ∀ (σ : Type) (st : RateLimitStore σ) (cfg : RateLimitConfig) (ip : String)
      (co : Option Claims) (s sOut : σ) (tr : List StoreOp),
      RateLimiter.RateLimit st true cfg ip co s =
        (RateLimitResult.tooManyRequestsUser, sOut, tr) →
      ∃ c k, st.GetCount s ("rate_limit:ip:" ++ ip) = Except.ok c ∧
        c < cfg.Limit ∧
        st.Increment s ("rate_limit:ip:" ++ ip) cfg.Window = Except.ok (k, sOut) ∧
        StoreOp.incr ("rate_limit:ip:" ++ ip) cfg.Window ∈ tr := by
  intro σ st cfg ip co s sOut tr h
  rcases hcfg : cfg.Enabled with _ | _
  · simp [RateLimiter.RateLimit, hcfg] at h
  · rcases hc1 : checkRateLimit st s ("rate_limit:ip:" ++ ip) cfg with ⟨r1, tr1⟩
    rcases r1 with e | s1
    · simp [RateLimiter.RateLimit, hcfg, hc1] at h
    · by_cases hu : userIDOf co = ""
      · simp [RateLimiter.RateLimit, hcfg, hc1, hu] at h
      · rcases hc2 : checkRateLimit st s1 ("rate_limit:user:" ++ userIDOf co) cfg
          with ⟨r2, tr2⟩
        rcases r2 with e2 | s2
        · have hRL : RateLimiter.RateLimit st true cfg ip co s =
              (RateLimitResult.tooManyRequestsUser, s1, tr1 ++ tr2) := by
            simp [RateLimiter.RateLimit, hcfg, hc1, hc2, hu]
          rw [hRL] at h
          have hs1 : s1 = sOut := congrArg (fun x => x.2.1) h
          have htr : tr1 ++ tr2 = tr := congrArg (fun x => x.2.2) h
          obtain ⟨c, k, hg, hl, hi⟩ :=
            checkRateLimit_ok_inv st s ("rate_limit:ip:" ++ ip) cfg s1 (by rw [hc1])
          have htr1 : tr1 = [StoreOp.get ("rate_limit:ip:" ++ ip),
              StoreOp.incr ("rate_limit:ip:" ++ ip) cfg.Window] := by
            have hokt := checkRateLimit_ok_trace st s ("rate_limit:ip:" ++ ip) cfg s1
              (by rw [hc1])
            rw [hc1] at hokt
            exact hokt
          refine ⟨c, k, hg, hl, ?_, ?_⟩
          · rw [hs1] at hi
            exact hi
          · rw [← htr, htr1]
            simp
        · simp [RateLimiter.RateLimit, hcfg, hc1, hc2, hu] at h

/-- Witness for C10 at a concrete input: with the user counter already at
the limit, the denied request has still incremented the IP counter. -/
theorem c10_user_denial_consumes_ip_budget_witness :
    ∃ c k, (memStore 0).GetCount [("rate_limit:user:u1", ⟨5, 100⟩)]
        ("rate_limit:ip:" ++ "1.2.3.4") = Except.ok c ∧
      c < ({ Enabled := true, Limit := 5, Window := 60 } : RateLimitConfig).Limit ∧
      (memStore 0).Increment [("rate_limit:user:u1", ⟨5, 100⟩)]
          ("rate_limit:ip:" ++ "1.2.3.4")
          ({ Enabled := true, Limit := 5, Window := 60 } : RateLimitConfig).Window =
        Except.ok (k, [("rate_limit:user:u1", ⟨5, 100⟩),
                       ("rate_limit:ip:1.2.3.4", ⟨1, 60⟩)]) ∧
      StoreOp.incr ("rate_limit:ip:" ++ "1.2.3.4")
          ({ Enabled := true, Limit := 5, Window := 60 } : RateLimitConfig).Window ∈
        [StoreOp.get "rate_limit:ip:1.2.3.4",
         StoreOp.incr "rate_limit:ip:1.2.3.4" 60,
         StoreOp.get "rate_limit:user:u1"] :=
  c10_user_denial_consumes_ip_budget MemStore (memStore 0)
    { Enabled := true, Limit := 5, Window := 60 } "1.2.3.4" (some claimsA)
    [("rate_limit:user:u1", ⟨5, 100⟩)]
    [("rate_limit:user:u1", ⟨5, 100⟩), ("rate_limit:ip:1.2.3.4", ⟨1, 60⟩)]
    [StoreOp.get "rate_limit:ip:1.2.3.4",
     StoreOp.incr "rate_limit:ip:1.2.3.4" 60,
     StoreOp.get "rate_limit:user:u1"] (by decide)

end Heimdall
